import Mathlib

/-!
Shallow embedding of `collect_downloads.py` ("azsdk-status"): a linear
fetch → filter → sort → render pipeline that queries the NuGet search API,
filters Azure data-plane packages, ranks them by total downloads and renders
a static HTML report.

Modelling conventions:
* Python `int` is modelled by `Int` (arbitrary precision in both).
* Python `float` arithmetic in `humanize_number` and the bar-width
  computation is modelled by exact rational arithmetic, represented as
  explicit numerator/denominator pairs of integers (so every definition is
  kernel-computable).  At every concrete input evaluated in the theorems
  below, the IEEE-754 double computation and the exact rational computation
  provably round to the same decimal string: the inputs are far from every
  rounding boundary.
* `int(math.log(value, 1000))` is modelled as the exact floor logarithm
  `Nat.log 1000`.  At every input appearing in a theorem below, the float
  result is forced to agree with the exact floor: the relative error of a
  ≤ 1 ulp `log` is orders of magnitude too small to move the quotient
  across an integer boundary at those inputs, and at an exact power the
  quotient `log(x)/log(x) = 1.0` is exact.
* Python `f"{x:.Nf}"` formatting (round-half-even to `N` decimals) is
  `formatFixed`; `f"{n:,}"` thousands grouping is `commaFormat`.
* Fallible code (`int(...)` raising `ValueError`/`TypeError`, a fetch
  failing with `requests.RequestException`) returns `Except String`.
* The `while True` pagination loop is modelled with explicit fuel; `none`
  means the fuel ran out before the loop hit a stop condition.
* `datetime.utcnow()` sampled inside `build_html` is made an explicit
  parameter `utcnow_iso` (the truncated ISO timestamp the call produces).
-/

/-- Round the rational `num / den` (with `den > 0`) half to even
("banker's rounding"), the rounding used by Python float formatting. -/
def roundHalfEven (num den : Int) : Int :=
  let f := Int.fdiv num den
  let r2 := 2 * (num - f * den)
  if r2 < den then f
  else if den < r2 then f + 1
  else if f % 2 = 0 then f else f + 1

/-- Left-pad a digit string with zeros to the given width. -/
def padZeros (s : String) (n : Nat) : String :=
  if s.length < n then String.mk (List.replicate (n - s.length) '0') ++ s
  else s

/-- Model of Python `f"{x:.pf}"` fixed-point formatting (round half to even)
of the exact rational `num / den`, with `den > 0`. -/
def formatFixed (num den : Int) (prec : Nat) : String :=
  let n := roundHalfEven (num * ((10 ^ prec : Nat) : Int)) den
  let sign := if n < 0 then "-" else ""
  let m := n.natAbs
  if prec = 0 then sign ++ toString m
  else sign ++ toString (m / 10 ^ prec) ++ "." ++ padZeros (toString (m % 10 ^ prec)) prec

/-- Split a (reversed) digit list into groups of three, low-order first. -/
def chunks3 : List Char → List (List Char)
  | [] => []
  | a :: b :: c :: rest => [a, b, c] :: chunks3 rest
  | l => [l]

/-- Model of Python `f"{n:,}"`: decimal rendering with a comma every three
digits from the right. -/
def commaFormat (n : Int) : String :=
  (if n < 0 then "-" else "") ++
    String.mk (List.intercalate [','] (chunks3 (toString n.natAbs).toList.reverse)).reverse

/-- The suffix table of `humanize_number` (`suffixes = ["", "K", "M", "B", "T"]`). -/
def suffixes : List String := ["", "K", "M", "B", "T"]

/-- Embedding of `humanize_number` (src lines 85-97).  `int(math.log(value, 1000))`
is the exact floor logarithm here (see the module docstring); the cap
`min(magnitude, len(suffixes) - 1)` is as in the source; `scaled` is the exact
rational `value / 1000^magnitude`, so the test `scaled >= 100` is transcribed
as `100 * 1000^magnitude ≤ value` and the two formatting branches receive the
fraction as a numerator/denominator pair. -/
def humanize_number (value : Int) : String :=
  if value < 1000 then toString value
  else
    let magnitude := Nat.log 1000 value.toNat
    let magnitude := min magnitude (suffixes.length - 1)
    let den : Int := ((1000 ^ magnitude : Nat) : Int)
    let suffix := suffixes.getD magnitude ""
    if 100 * den ≤ value ∨ magnitude = 0 then formatFixed value den 0 ++ suffix
    else formatFixed value den 1 ++ suffix

/-- Embedding of the `Package` dataclass (src lines 19-28).
Fields in order: `id`, `version`, `total_downloads`, `description`,
`project_url`, `owners`. -/
structure Package where
  id : String
  version : String
  total_downloads : Int
  description : String
  project_url : Option String
  owners : List String
deriving Repr, DecidableEq

/-- The comparison used by `sorted(packages, key=lambda pkg: pkg.total_downloads,
reverse=True)`: `a` may precede `b` iff `a`'s downloads are ≥ `b`'s.  A stable
sort under this total preorder is exactly Python's stable descending key sort
(ties keep input order in both). -/
def downloadsGE (a b : Package) : Bool :=
  decide (b.total_downloads ≤ a.total_downloads)

/-- Embedding of `select_top_packages` (src lines 78-82): stable-sort by
downloads descending, take the first `limit` (the Python default for `limit`
is 50; `main` uses the default). -/
def select_top_packages (packages : List Package) (limit : Nat) : List Package :=
  (packages.mergeSort downloadsGE).take limit

/-- Model of Python `sep.join(items)`: the items in order with `sep` between
consecutive items, nothing at the ends, `""` for the empty list. -/
def joinWith (sep : String) : List String → String
  | [] => ""
  | [s] => s
  | s :: rest => s ++ sep ++ joinWith sep rest

/-- The two bar-width lines of `build_html` (src lines 108-109) as an exact
rational, returned as a numerator/denominator pair with positive denominator:
`bar_width = 0 if max_downloads == 0 else (total_downloads / max_downloads) * 100`
followed by `bar_width = max(2, bar_width) if total_downloads > 0 else 0`
(`max(2, w)` keeps `w` exactly when `w ≥ 2`). -/
def bar_width_frac (max_downloads total_downloads : Int) : Int × Int :=
  let w : Int × Int :=
    if max_downloads = 0 then (0, 1)
    else if max_downloads < 0 then (-(total_downloads * 100), -max_downloads)
    else (total_downloads * 100, max_downloads)
  if 0 < total_downloads then (if 2 * w.2 ≤ w.1 then w else (2, 1)) else (0, 1)

/-- The rational value of a numerator/denominator pair. -/
def fracToRat (p : Int × Int) : ℚ := (p.1 : ℚ) / (p.2 : ℚ)

/-- Em-dash placeholder for missing owners: the exact (mojibake) literal at
src line 115, U+00E2 U+20AC U+201D. -/
def ownersPlaceholder : String := "â€”"

/-- One table row of `build_html` (src lines 107-125); `index` is the 1-based
rank.  Python truthiness: `if package.project_url` is false both for `None`
and for an empty string; `if package.owners` is false for the empty tuple. -/
def renderRow (max_downloads : Int) (index : Nat) (package : Package) : String :=
  let bw := bar_width_frac max_downloads package.total_downloads
  let project_link :=
    match package.project_url with
    | some url =>
      if url = "" then package.id
      else "<a href=\"" ++ url ++ "\" target=\"_blank\" rel=\"noopener\">" ++ package.id ++ "</a>"
    | none => package.id
  let owners_display :=
    if package.owners.isEmpty then ownersPlaceholder
    else joinWith ", " package.owners
  "<tr>" ++
    "<td class=\x27rank\x27>" ++ toString index ++ "</td>" ++
    "<td class=\x27package\x27>" ++ project_link ++ "<div class=\x27description\x27>" ++
      package.description ++ "</div></td>" ++
    "<td class=\x27owners\x27>" ++ owners_display ++ "</td>" ++
    "<td class=\x27downloads\x27>" ++ commaFormat package.total_downloads ++
      "<div class=\x27bar\x27 style=\x27width: " ++ formatFixed bw.1 bw.2 2 ++ "%;\x27></div></td>" ++
    "<td class=\x27human\x27>" ++ humanize_number package.total_downloads ++ "</td>" ++
    "</tr>"

/-- The document template of `build_html` up to the `{len(packages)}`
interpolation (src lines 129-216): doctype, head, the embedded CSS and the
opening of the meta line.  The braces of the CSS (written `{{`/`}}` in the
Python f-string) appear escaped here. -/
def templateHead : String :=
  "
<!DOCTYPE html>
<html lang=\"en\">
<head>
    <meta charset=\"utf-8\">
    <title>Azure Data-Plane SDK Downloads</title>
    <style>
        body \x7b
            font-family: Arial, sans-serif;
            margin: 2rem;
            background-color: #f5f7fa;
            color: #1f2933;
        \x7d
        h1 \x7b
            margin-bottom: 0.5rem;
        \x7d
        .meta \x7b
            margin-bottom: 1.5rem;
            color: #52606d;
        \x7d
        table \x7b
            width: 100%;
            border-collapse: collapse;
            background-color: #ffffff;
            box-shadow: 0 1px 3px rgba(0, 0, 0, 0.1);
        \x7d
        th, td \x7b
            padding: 0.75rem 1rem;
            border-bottom: 1px solid #d9e2ec;
            vertical-align: top;
        \x7d
        th \x7b
            background-color: #243b53;
            color: #f0f4f8;
            text-align: left;
        \x7d
        tr:nth-child(even) td \x7b
            background-color: #f8fafc;
        \x7d
        td.rank \x7b
            width: 3rem;
            font-weight: bold;
        \x7d
        td.package \x7b
            width: 38%;
        \x7d
        td.package a \x7b
            color: #0967d2;
            text-decoration: none;
        \x7d
        td.package a:hover \x7b
            text-decoration: underline;
        \x7d
        td.owners \x7b
            width: 22%;
            font-size: 0.95rem;
            color: #334e68;
        \x7d
        .description \x7b
            margin-top: 0.35rem;
            font-size: 0.9rem;
            color: #52606d;
        \x7d
        td.downloads \x7b
            position: relative;
            width: 27%;
        \x7d
        td.downloads .bar \x7b
            margin-top: 0.4rem;
            height: 0.6rem;
            background: linear-gradient(90deg, #2bb0ed, #1f9dff);
            border-radius: 0.3rem;
        \x7d
        td.human \x7b
            width: 10%;
            font-weight: bold;
            text-align: right;
        \x7d
        .footer \x7b
            margin-top: 1rem;
            font-size: 0.85rem;
            color: #829ab1;
        \x7d
    </style>
</head>
<body>
    <h1>Azure Data-Plane SDK Downloads</h1>
    <div class=\"meta\">Top "

/-- The template piece between `{len(packages)}` and `{generated_at}`
(src line 216). -/
def templateGenerated : String := " packages by total downloads. Generated at "

/-- The template piece between `{generated_at}` and `{rows_html}`
(src lines 216-228). -/
def templateTableHead : String :=
  ".</div>
    <table>
        <thead>
            <tr>
                <th>#</th>
                <th>Package</th>
                <th>Owners</th>
                <th>Total Downloads</th>
                <th>Human Readable</th>
            </tr>
        </thead>
        <tbody>
            "

/-- The template piece after `{rows_html}` (src lines 228-234). -/
def templateFoot : String :=
  "
        </tbody>
    </table>
    <div class=\"footer\">Source: nuget.org search API (data-plane packages only).</div>
</body>
</html>
"

/-- Embedding of `build_html` (src lines 100-234).  The timestamp the source
samples internally via `datetime.utcnow().replace(microsecond=0).isoformat()`
(src line 103) is made the explicit parameter `utcnow_iso`; the source then
appends `"Z"`.  `max_downloads` is the first entry's count if the list is
nonempty, else 0. -/
def build_html (packages : List Package) (utcnow_iso : String) : String :=
  let generated_at := utcnow_iso ++ "Z"
  let max_downloads := match packages with | [] => 0 | package :: _ => package.total_downloads
  let rows := packages.mapIdx (fun i package => renderRow max_downloads (i + 1) package)
  let rows_html :=
    if rows.isEmpty then "<tr><td colspan=\x275\x27>No packages found.</td></tr>"
    else joinWith "\n" rows
  templateHead ++ toString packages.length ++ templateGenerated ++ generated_at ++
    templateTableHead ++ rows_html ++ templateFoot

/-- Model of Python `s.startswith(pre)`: `pre`'s characters are a prefix of
`s`'s. -/
def pyStartswith (s pre : String) : Bool :=
  pre.data.isPrefixOf s.data

/-- Decimal digit test on a character (Python `str.isdigit` restricted to
ASCII, which is all `int(...)` accepts). -/
def isAsciiDigit (c : Char) : Bool :=
  48 ≤ c.toNat && c.toNat ≤ 57

/-- Parse a nonempty all-digit character list as a natural number. -/
def parseNatDigits (cs : List Char) : Option Nat :=
  if cs.isEmpty then none
  else
    cs.foldl
      (fun acc c =>
        match acc with
        | none => none
        | some n => if isAsciiDigit c then some (n * 10 + (c.toNat - 48)) else none)
      (some 0)

/-- Model of Python `int(s)` on a string: an optional sign followed by a
nonempty digit run (Python additionally strips surrounding whitespace and
allows digit-group underscores; immaterial for every input evaluated
below). -/
def pyIntOfString (s : String) : Option Int :=
  match s.data with
  | '-' :: rest => (parseNatDigits rest).map (fun n => -(n : Int))
  | '+' :: rest => (parseNatDigits rest).map (fun n => (n : Int))
  | l => (parseNatDigits l).map (fun n => (n : Int))

/-- A JSON scalar, as far as the code inspects one: the `totalDownloads`
field is piped through `int(...)`, so its raw shape matters. -/
inductive JsonVal where
  | jnum (n : Int)
  | jstr (s : String)
  | jbool (b : Bool)
  | jnull
deriving Repr, DecidableEq

/-- Model of Python `int(x)` as applied at src line 63: an `int` (or `bool`)
converts, a string converts iff it is a decimal integer literal (Python also
allows an optional sign, surrounding whitespace and digit underscores; the
simple form suffices for every input used below), anything else raises. -/
def pyInt : JsonVal → Except String Int
  | .jnum n => .ok n
  | .jbool b => .ok (if b then 1 else 0)
  | .jstr s =>
    match pyIntOfString s with
    | some n => .ok n
    | none => .error ("ValueError: invalid literal for int() with base 10: " ++ s)
  | .jnull => .error "TypeError: int() argument cannot be NoneType"

/-- One element of a response's `data` list, as read by the loop body
(src lines 52-68).  `none` models an absent key (the code reads every field
with `entry.get(...)`).  `totalDownloads` is kept as a raw JSON value because
the code converts it with `int(...)`; the remaining fields are used at their
expected types. -/
structure RawEntry where
  id : Option String
  version : Option String
  totalDownloads : Option JsonVal
  description : Option String
  projectUrl : Option String
  owners : Option (List String)
deriving Repr, DecidableEq

/-- The inclusion test of src lines 54-57: the identifier must start with
`"Azure."` and must not start with any of `"Azure.ResourceManager"`,
`"Azure.Core"`, `"Azure.Identity"`. -/
def includedId (package_id : String) : Bool :=
  pyStartswith package_id "Azure." &&
    !(pyStartswith package_id "Azure.ResourceManager" ||
      pyStartswith package_id "Azure.Core" ||
      pyStartswith package_id "Azure.Identity")

/-- The body of the per-entry loop (src lines 52-68): a filtered-out entry
yields `ok none` (the two `continue`s, checked before any field conversion);
an included entry yields `ok (some package)` unless `int(totalDownloads)`
raises, in which case the whole fetch raises. -/
def processEntry (entry : RawEntry) : Except String (Option Package) :=
  let package_id := entry.id.getD ""
  if ¬ pyStartswith package_id "Azure." then .ok none
  else if pyStartswith package_id "Azure.ResourceManager" ||
      pyStartswith package_id "Azure.Core" ||
      pyStartswith package_id "Azure.Identity" then .ok none
  else
    match pyInt (entry.totalDownloads.getD (.jnum 0)) with
    | .error e => .error e
    | .ok td =>
      .ok (some ⟨package_id, entry.version.getD "", td, entry.description.getD "",
        entry.projectUrl, entry.owners.getD []⟩)

/-- Process one page's entry list in order, collecting the included packages;
a raised conversion aborts the whole fetch (src lines 52-68). -/
def processEntries : List RawEntry → Except String (List Package)
  | [] => .ok []
  | entry :: rest =>
    match processEntry entry with
    | .error e => .error e
    | .ok none => processEntries rest
    | .ok (some pkg) =>
      match processEntries rest with
      | .error e => .error e
      | .ok pkgs => .ok (pkg :: pkgs)

/-- One (successfully transported and parsed) response of the search
endpoint: the `data` list and the optional `totalHits` count
(src lines 47-48, 71). -/
structure PageResp where
  data : List RawEntry
  totalHits : Option Nat
deriving Repr

/-- `TAKE = 100`, the fixed page size (src line 16). -/
def TAKE : Nat := 100

/-- The `while True` pagination loop of `fetch_packages` (src lines 37-75),
with the server modelled as a function from the `skip` offset to the page it
returns and the loop given explicit fuel.  `none` means the fuel ran out
before a stop condition fired.  Each iteration: read the page at `skip`;
stop with the accumulated list if its `data` is empty; otherwise process the
entries (a conversion error aborts), advance `skip` by `TAKE`, and stop if
`totalHits` is present and `skip` has reached it. -/
def fetchGo (server : Nat → PageResp) :
    Nat → Nat → List Package → Option (Except String (List Package))
  | 0, _, _ => none
  | fuel + 1, skip, packages =>
    let page := server skip
    if page.data.isEmpty then some (.ok packages)
    else
      match processEntries page.data with
      | .error e => some (.error e)
      | .ok newPackages =>
        let packages := packages ++ newPackages
        let skip := skip + TAKE
        match page.totalHits with
        | some total_hits =>
          if total_hits ≤ skip then some (.ok packages)
          else fetchGo server fuel skip packages
        | none => fetchGo server fuel skip packages

/-- Embedding of `fetch_packages` (src lines 31-75): run the pagination loop
from offset 0 with an empty accumulator. -/
def fetch_packages (server : Nat → PageResp) (fuel : Nat) :
    Option (Except String (List Package)) :=
  fetchGo server fuel 0 []

/-- `DEFAULT_OUTPUT` (src line 15). -/
def DEFAULT_OUTPUT : String := "azure_data_plane_downloads.html"

/-- The observable outcome of one run of `main` (src lines 247-264): the
process exit status, the file written (path and full contents; `none` when
nothing is written), the line printed to stderr and the line printed to
stdout. -/
structure RunResult where
  exitCode : Nat
  written : Option (String × String)
  errOutput : Option String
  stdOutput : Option String
deriving Repr, DecidableEq

/-- Embedding of `main` (src lines 247-264).  The fetch (including transport
and body parsing — `raise_for_status`, `response.json()` and timeouts all
raise subclasses of `requests.RequestException`) is abstracted by its
outcome `fetchResult`; on error `main` prints `Failed to fetch package data:`
to stderr and returns 1 before ranking, rendering or opening the output
file; on success it ranks, renders (sampling the clock, here `utcnow_iso`),
writes the document to `output` and returns 0. -/
def main_run (fetchResult : Except String (List Package)) (output : String)
    (utcnow_iso : String) : RunResult :=
  match fetchResult with
  | .error exc => ⟨1, none, some ("Failed to fetch package data: " ++ exc), none⟩
  | .ok packages =>
    let top_packages := select_top_packages packages 50
    let html := build_html top_packages utcnow_iso
    ⟨0, some (output, html), none,
      some ("Wrote " ++ toString top_packages.length ++ " package entries to " ++ output)⟩

/-- Evaluation helper: `humanize_number 1000`. -/
theorem humanize_eval_1000 : humanize_number 1000 = "1.0K" := by
  have hlog : Nat.log 1000 (Int.toNat 1000) = 1 :=
    Nat.log_eq_of_pow_le_of_lt_pow (by norm_num) (by norm_num)
  simp only [humanize_number, hlog]
  decide

/-- Evaluation helper: `humanize_number 1500`. -/
theorem humanize_eval_1500 : humanize_number 1500 = "1.5K" := by
  have hlog : Nat.log 1000 (Int.toNat 1500) = 1 :=
    Nat.log_eq_of_pow_le_of_lt_pow (by norm_num) (by norm_num)
  simp only [humanize_number, hlog]
  decide

/-- Evaluation helper: `humanize_number 12345`. -/
theorem humanize_eval_12345 : humanize_number 12345 = "12.3K" := by
  have hlog : Nat.log 1000 (Int.toNat 12345) = 1 :=
    Nat.log_eq_of_pow_le_of_lt_pow (by norm_num) (by norm_num)
  simp only [humanize_number, hlog]
  decide

/-- Evaluation helper: `humanize_number 999999` (scaled value 999.999 takes the
`scaled >= 100` branch, so zero decimal places, rounding up to `1000`). -/
theorem humanize_eval_999999 : humanize_number 999999 = "1000K" := by
  have hlog : Nat.log 1000 (Int.toNat 999999) = 1 :=
    Nat.log_eq_of_pow_le_of_lt_pow (by norm_num) (by norm_num)
  simp only [humanize_number, hlog]
  decide

/-- Evaluation helper: `humanize_number 1000000`. -/
theorem humanize_eval_1000000 : humanize_number 1000000 = "1.0M" := by
  have hlog : Nat.log 1000 (Int.toNat 1000000) = 2 :=
    Nat.log_eq_of_pow_le_of_lt_pow (by norm_num) (by norm_num)
  simp only [humanize_number, hlog]
  decide

/-- Evaluation helper: `humanize_number 250000000`. -/
theorem humanize_eval_250000000 : humanize_number 250000000 = "250M" := by
  have hlog : Nat.log 1000 (Int.toNat 250000000) = 2 :=
    Nat.log_eq_of_pow_le_of_lt_pow (by norm_num) (by norm_num)
  simp only [humanize_number, hlog]
  decide

/-- C1 counterexample: three of the claimed authoritative examples are wrong
on the code.  `humanize_number` formats a scaled value below 100 in a
non-base tier with exactly one decimal place, so 1000 renders as "1.0K" (not
"1K") and 1000000 as "1.0M" (not "1M"); 999999 scales to 999.999 in the K
tier, which is ≥ 100 and therefore takes the zero-decimal branch, rounding
to "1000K" (not "1000.0K"). -/
theorem C1_counterexample :
    humanize_number 1000 ≠ "1K" ∧
    humanize_number 999999 ≠ "1000.0K" ∧
    humanize_number 1000000 ≠ "1M" := by
  refine ⟨?_, ?_, ?_⟩
  · rw [humanize_eval_1000]; decide
  · rw [humanize_eval_999999]; decide
  · rw [humanize_eval_1000000]; decide

/-- C1 amended: the exact values `humanize_number` produces on the eight
claimed inputs.  Five examples hold as claimed; 1000 gives "1.0K",
999999 gives "1000K" and 1000000 gives "1.0M". -/
theorem C1_humanize_values :
    humanize_number 0 = "0" ∧
    humanize_number 999 = "999" ∧
    humanize_number 1000 = "1.0K" ∧
    humanize_number 1500 = "1.5K" ∧
    humanize_number 12345 = "12.3K" ∧
    humanize_number 999999 = "1000K" ∧
    humanize_number 1000000 = "1.0M" ∧
    humanize_number 250000000 = "250M" :=
  ⟨by decide, by decide, humanize_eval_1000, humanize_eval_1500, humanize_eval_12345,
    humanize_eval_999999, humanize_eval_1000000, humanize_eval_250000000⟩

/-- C7: the Ranker returns exactly `min n (length entries)` items, for every
entry list and every `n`. -/
theorem C7_top_n_length (entries : List Package) (n : Nat) :
    (select_top_packages entries n).length = min n entries.length := by
  simp [select_top_packages]

/-- C9: when the fetch fails, `main` exits with status 1 (non-zero), writes
no output file, and prints the failure message to stderr; when the fetch
succeeds, it exits with status 0 and writes the rendered document of the
ranked packages.  The error branch returns before `select_top_packages`,
`build_html`, or the file open run. -/
theorem C9_main_behaviour (exc output utcnow_iso : String) (packages : List Package) :
    (main_run (.error exc) output utcnow_iso).exitCode = 1 ∧
    (main_run (.error exc) output utcnow_iso).written = none ∧
    (main_run (.error exc) output utcnow_iso).errOutput =
      some ("Failed to fetch package data: " ++ exc) ∧
    (main_run (.ok packages) output utcnow_iso).exitCode = 0 ∧
    (main_run (.ok packages) output utcnow_iso).written =
      some (output, build_html (select_top_packages packages 50) utcnow_iso) ∧
    (main_run (.ok packages) output utcnow_iso).errOutput = none :=
  ⟨rfl, rfl, rfl, rfl, rfl, rfl⟩

/-- The document rendered for the empty entry list: the template around the
count `0`, the caller-visible timestamp and the placeholder row. -/
theorem build_html_nil (ts : String) :
    build_html [] ts =
      templateHead ++ "0" ++ templateGenerated ++ (ts ++ "Z") ++ templateTableHead ++
        "<tr><td colspan=\x275\x27>No packages found.</td></tr>" ++ templateFoot := rfl

/-- C2 counterexample: the source's renderer is not a function of the entry
list plus a caller-supplied timestamp — `build_html` takes only the package
list (src line 100) and samples `datetime.utcnow()` itself (src line 103).
With the sampled instant made explicit, two invocations on the SAME entry
list can produce different documents, because the internally sampled clock
value leaks into the output. -/
theorem C2_counterexample :
    build_html [] "2024-01-01T00:00:00" ≠ build_html [] "2024-01-02T00:00:00" := by
  intro h
  have hd := congrArg String.data h
  simp only [build_html_nil, String.data_append] at hd
  have h1 := List.append_inj_left' hd rfl
  have h2 := List.append_inj_left' h1 rfl
  have h3 := List.append_inj_left' h2 rfl
  have h4 := (List.append_inj h3 rfl).2
  have h5 := List.append_inj_left' h4 rfl
  exact absurd h5 (by decide)


/-- C2 amended: `build_html` samples the generation timestamp internally
instead of receiving it from the caller; holding that sampled timestamp
fixed, rendering is deterministic — the same entries and the same sampled
timestamp always produce identical document text. -/
theorem C2_deterministic (entries₁ entries₂ : List Package) (ts₁ ts₂ : String)
    (hentries : entries₁ = entries₂) (hts : ts₁ = ts₂) :
    build_html entries₁ ts₁ = build_html entries₂ ts₂ := by
  rw [hentries, hts]

/-- C2 witness: the determinism theorem applied at a concrete entry list and
timestamp. -/
theorem C2_witness :
    build_html [⟨"Azure.Data.Tables", "12.9.0", 5, "d", none, []⟩] "2024-01-01T00:00:00" =
      build_html [⟨"Azure.Data.Tables", "12.9.0", 5, "d", none, []⟩] "2024-01-01T00:00:00" :=
  C2_deterministic _ _ _ _ rfl rfl

/-- A fetched entry whose identifier passes the filters but whose download
count is a non-numeric string. -/
def C3_malformed_entry : RawEntry :=
  ⟨some "Azure.Data.Tables", some "12.9.0", some (.jstr "many"), some "Tables client",
    none, some ["azure-sdk"]⟩

/-- C3 counterexample: a present-but-malformed download count is NOT
defaulted to 0 — `int(entry.get("totalDownloads", 0))` (src line 63) only
defaults the absent case, and raises on a non-numeric value, aborting the
whole fetch rather than including the entry. -/
theorem C3_counterexample :
    processEntry C3_malformed_entry =
      .error "ValueError: invalid literal for int() with base 10: many" ∧
    fetch_packages (fun _ => ⟨[C3_malformed_entry], some 1⟩) 1 =
      some (.error "ValueError: invalid literal for int() with base 10: many") := by
  exact ⟨rfl, rfl⟩

/-- C3 amended: an ABSENT popularity field is defaulted to 0 and never makes
the entry fail (`entry.get("totalDownloads", 0)` supplies the integer 0, and
`int(0)` succeeds): the entry is either filtered out or included with
popularity 0.  A present but malformed value instead raises and aborts the
fetch (see the counterexample). -/
theorem C3_absent_defaults_to_zero (entry : RawEntry)
    (habsent : entry.totalDownloads = none) :
    (∃ r, processEntry entry = .ok r) ∧
    (∀ pkg, processEntry entry = .ok (some pkg) → pkg.total_downloads = 0) := by
  simp only [processEntry, habsent, Option.getD, pyInt]
  split_ifs with h1 h2 <;>
    first
    | exact ⟨⟨none, rfl⟩, fun pkg hp => by simp at hp⟩
    | exact ⟨⟨some _, rfl⟩, fun pkg hp => by
        simp only [Except.ok.injEq, Option.some.injEq] at hp
        subst hp
        rfl⟩

/-- An entry with no `totalDownloads` key at all. -/
def C3_absent_entry : RawEntry :=
  ⟨some "Azure.Storage.Blobs", some "12.19.0", none, some "Blob storage client",
    some "https://example.invalid/blobs", some ["azure-sdk"]⟩

/-- C3 witness: the amended theorem applied to a concrete entry with an
absent download count. -/
theorem C3_witness :
    (∃ r, processEntry C3_absent_entry = .ok r) ∧
    (∀ pkg, processEntry C3_absent_entry = .ok (some pkg) → pkg.total_downloads = 0) :=
  C3_absent_defaults_to_zero C3_absent_entry rfl

/-- The two `continue` guards of the loop body collapse to the single
inclusion predicate `includedId`. -/
theorem processEntry_eq (entry : RawEntry) :
    processEntry entry =
      (if includedId (entry.id.getD "") then
        match pyInt (entry.totalDownloads.getD (.jnum 0)) with
        | .error e => .error e
        | .ok td => .ok (some ⟨entry.id.getD "", entry.version.getD "", td,
            entry.description.getD "", entry.projectUrl, entry.owners.getD []⟩)
      else .ok none) := by
  cases hA : pyStartswith (entry.id.getD "") "Azure." <;>
    cases hB : (pyStartswith (entry.id.getD "") "Azure.ResourceManager" ||
        pyStartswith (entry.id.getD "") "Azure.Core" ||
        pyStartswith (entry.id.getD "") "Azure.Identity") <;>
      simp [processEntry, includedId, hA, hB]

/-- Any package produced by the loop body passes the inclusion predicate. -/
theorem processEntry_included (entry : RawEntry) (pkg : Package)
    (h : processEntry entry = .ok (some pkg)) : includedId pkg.id = true := by
  rw [processEntry_eq] at h
  by_cases hinc : includedId (entry.id.getD "") = true
  · rw [if_pos hinc] at h
    cases hpy : pyInt (entry.totalDownloads.getD (.jnum 0)) with
    | error e => rw [hpy] at h; simp at h
    | ok td =>
      rw [hpy] at h
      simp only [Except.ok.injEq, Option.some.injEq] at h
      subst h
      exact hinc
  · rw [if_neg hinc] at h
    simp at h

/-- Every package of a processed page passes the inclusion predicate. -/
theorem processEntries_included :
    ∀ (entries : List RawEntry) (pkgs : List Package),
      processEntries entries = .ok pkgs → ∀ p ∈ pkgs, includedId p.id = true := by
  intro entries
  induction entries with
  | nil =>
    intro pkgs h p hp
    simp only [processEntries, Except.ok.injEq] at h
    subst h
    simp at hp
  | cons e rest ih =>
    intro pkgs h p hp
    simp only [processEntries] at h
    cases hpe : processEntry e with
    | error err => rw [hpe] at h; simp at h
    | ok r =>
      rw [hpe] at h
      cases r with
      | none => exact ih pkgs h p hp
      | some pkg =>
        cases hrest : processEntries rest with
        | error err => rw [hrest] at h; simp at h
        | ok pkgs2 =>
          rw [hrest] at h
          simp only [Except.ok.injEq] at h
          subst h
          rcases List.mem_cons.mp hp with hp | hp
          · subst hp; exact processEntry_included e p hpe
          · exact ih pkgs2 hrest p hp

/-- The pagination loop preserves the inclusion invariant of the
accumulator. -/
theorem fetchGo_included (server : Nat → PageResp) :
    ∀ (fuel skip : Nat) (acc res : List Package),
      (∀ p ∈ acc, includedId p.id = true) →
      fetchGo server fuel skip acc = some (.ok res) →
      ∀ p ∈ res, includedId p.id = true := by
  intro fuel
  induction fuel with
  | zero => intro skip acc res hacc h; simp [fetchGo] at h
  | succ n ih =>
    intro skip acc res hacc h
    simp only [fetchGo] at h
    by_cases hemp : (server skip).data.isEmpty
    · rw [if_pos hemp] at h
      simp only [Option.some.injEq, Except.ok.injEq] at h
      subst h
      exact hacc
    · rw [if_neg hemp] at h
      cases hpe : processEntries (server skip).data with
      | error e => rw [hpe] at h; simp at h
      | ok newPkgs =>
        rw [hpe] at h
        have hacc2 : ∀ p ∈ acc ++ newPkgs, includedId p.id = true := by
          intro p hp
          rcases List.mem_append.mp hp with hp | hp
          · exact hacc p hp
          · exact processEntries_included _ _ hpe p hp
        cases hth : (server skip).totalHits with
        | none => rw [hth] at h; exact ih _ _ _ hacc2 h
        | some t =>
          rw [hth] at h
          dsimp only at h
          by_cases hle : t ≤ skip + TAKE
          · rw [if_pos hle] at h
            simp only [Option.some.injEq, Except.ok.injEq] at h
            subst h
            exact hacc2
          · rw [if_neg hle] at h; exact ih _ _ _ hacc2 h

/-- C5: whatever pages the server returns, no identifier that fails the
`Azure.` prefix rule, and none that starts with an excluded sub-prefix, ever
appears in the accumulated package list of a successful fetch — nor,
consequently, in the Ranker's output on that list, whatever the popularity
values are. -/
theorem C5_filter_invariant (server : Nat → PageResp) (fuel : Nat)
    (res : List Package) (h : fetch_packages server fuel = some (.ok res)) :
    (∀ p ∈ res, includedId p.id = true) ∧
    (∀ limit p, p ∈ select_top_packages res limit → includedId p.id = true) := by
  have hres := fetchGo_included server fuel 0 [] res (by simp) h
  refine ⟨hres, ?_⟩
  intro limit p hp
  have hmem : p ∈ res.mergeSort downloadsGE :=
    List.take_subset _ _ hp
  exact hres p (List.mem_mergeSort.mp hmem)

/-- A one-page server mixing an includable entry, an out-of-namespace entry
and an excluded-sub-prefix entry. -/
def C5_server : Nat → PageResp := fun skip =>
  if skip = 0 then
    ⟨[⟨some "Azure.Data.Tables", some "12.9.0", some (.jnum 10), some "Tables", none, none⟩,
      ⟨some "Newtonsoft.Json", some "13.0.3", some (.jnum 999), some "Json", none, none⟩,
      ⟨some "Azure.Core.Amqp", some "1.3.0", some (.jnum 500), some "Amqp", none, none⟩],
     some 3⟩
  else ⟨[], none⟩

/-- C5 witness: the invariant applied to the concrete mixed server; only the
`Azure.Data.Tables` entry survives. -/
theorem C5_witness :
    (∀ p ∈ [(⟨"Azure.Data.Tables", "12.9.0", 10, "Tables", none, []⟩ : Package)],
        includedId p.id = true) ∧
    (∀ limit p,
        p ∈ select_top_packages [⟨"Azure.Data.Tables", "12.9.0", 10, "Tables", none, []⟩] limit →
        includedId p.id = true) :=
  C5_filter_invariant C5_server 1 _ rfl

/-- C6: the Ranker's output is sorted by popularity descending (every pair,
in particular every adjacent pair, is non-increasing), the sort is a
permutation of the (unmutated) input, and it is stable: a pair of entries
with equal popularity keeps its input order. -/
theorem C6_ranker_sorted_stable (entries : List Package) (limit : Nat) :
    (select_top_packages entries limit).Pairwise
      (fun a b => b.total_downloads ≤ a.total_downloads) ∧
    (entries.mergeSort downloadsGE).Perm entries ∧
    (∀ a b : Package, a.total_downloads = b.total_downloads →
      List.Sublist [a, b] entries →
      List.Sublist [a, b] (entries.mergeSort downloadsGE)) := by
  have htrans : ∀ (a b c : Package), downloadsGE a b → downloadsGE b c → downloadsGE a c := by
    intro a b c hab hbc
    simp only [downloadsGE, decide_eq_true_eq] at hab hbc ⊢
    exact le_trans hbc hab
  have htotal : ∀ (a b : Package), downloadsGE a b || downloadsGE b a := by
    intro a b
    simp only [downloadsGE, Bool.or_eq_true, decide_eq_true_eq]
    exact le_total _ _
  refine ⟨?_, List.mergeSort_perm entries downloadsGE, ?_⟩
  · have hs := List.sorted_mergeSort htrans htotal entries
    have hs2 := hs.sublist (List.take_sublist limit _)
    exact hs2.imp (fun h => by simpa [downloadsGE] using h)
  · intro a b hab hsub
    refine List.pair_sublist_mergeSort htrans htotal ?_ hsub
    simp [downloadsGE, hab]

/-- Two packages with equal download counts. -/
def C6_pa : Package := ⟨"Azure.Data.Tables", "12.9.0", 7, "", none, []⟩

/-- A second package tied with `C6_pa` on downloads. -/
def C6_pb : Package := ⟨"Azure.Storage.Queues", "12.22.0", 7, "", none, []⟩

/-- C6 witness: the stability conjunct applied to a concrete tied pair — the
pair keeps its input order through the sort. -/
theorem C6_witness :
    List.Sublist [C6_pa, C6_pb] ([C6_pa, C6_pb].mergeSort downloadsGE) :=
  (C6_ranker_sorted_stable [C6_pa, C6_pb] 50).2.2 C6_pa C6_pb rfl (List.Sublist.refl _)

/-- One unfolding step of the pagination loop at positive fuel. -/
theorem fetchGo_succ (server : Nat → PageResp) (fuel skip : Nat) (packages : List Package) :
    fetchGo server (fuel + 1) skip packages =
      (if (server skip).data.isEmpty then some (.ok packages)
       else
         match processEntries (server skip).data with
         | .error e => some (.error e)
         | .ok newPackages =>
           match (server skip).totalHits with
           | some total_hits =>
             if total_hits ≤ skip + TAKE then some (.ok (packages ++ newPackages))
             else fetchGo server fuel (skip + TAKE) (packages ++ newPackages)
           | none => fetchGo server fuel (skip + TAKE) (packages ++ newPackages)) := rfl

/-- A stop condition of the pagination loop fires at (0-based) page `k`:
either that page's entry list is empty, or it carries a total-hit count that
the offset advanced past that page reaches or exceeds. -/
def stopSignal (server : Nat → PageResp) (k : Nat) : Prop :=
  (server (k * TAKE)).data = [] ∨
    (∃ t, (server (k * TAKE)).totalHits = some t ∧ t ≤ (k + 1) * TAKE)

/-- The pagination loop, started at page `i`, returns successfully with fuel
for exactly the pages up to the first stop signal — and returns nothing with
one unit less fuel. -/
theorem fetchGo_stops (server : Nat → PageResp) :
    ∀ (k i : Nat) (acc : List Package),
      stopSignal server (i + k) →
      (∀ j, i ≤ j → j < i + k → ¬ stopSignal server j) →
      (∀ j, i ≤ j → j ≤ i + k → ∃ pkgs, processEntries (server (j * TAKE)).data = .ok pkgs) →
      (∃ res, fetchGo server (k + 1) (i * TAKE) acc = some (.ok res)) ∧
        fetchGo server k (i * TAKE) acc = none := by
  intro k
  induction k with
  | zero =>
    intro i acc hstop hfirst hclean
    rw [Nat.add_zero] at hstop
    refine ⟨?_, rfl⟩
    by_cases hemp : (server (i * TAKE)).data.isEmpty
    · exact ⟨acc, by rw [fetchGo_succ, if_pos hemp]⟩
    · rcases hstop with hdata | ⟨t, hth, hle⟩
      · exact absurd (by simp [hdata]) hemp
      · obtain ⟨pkgs, hpk⟩ := hclean i (by omega) (by omega)
        refine ⟨acc ++ pkgs, ?_⟩
        have hle2 : t ≤ i * TAKE + TAKE := by
          have h1 : (i + 1) * TAKE = i * TAKE + TAKE := Nat.succ_mul i TAKE
          omega
        rw [fetchGo_succ, if_neg hemp, hpk, hth]
        dsimp only
        rw [if_pos hle2]
  | succ k ih =>
    intro i acc hstop hfirst hclean
    have hnostop : ¬ stopSignal server i := hfirst i (by omega) (by omega)
    have hemp : ¬ (server (i * TAKE)).data.isEmpty = true := by
      intro hcontra
      exact hnostop (Or.inl (List.isEmpty_iff.mp hcontra))
    obtain ⟨pkgs, hpk⟩ := hclean i (by omega) (by omega)
    have hstep : ∀ fuel, fetchGo server (fuel + 1) (i * TAKE) acc =
        fetchGo server fuel ((i + 1) * TAKE) (acc ++ pkgs) := by
      intro fuel
      rw [fetchGo_succ, if_neg hemp, hpk]
      cases hth : (server (i * TAKE)).totalHits with
      | none => dsimp only; rw [Nat.succ_mul]
      | some t =>
        dsimp only
        have hgt : ¬ t ≤ i * TAKE + TAKE := by
          intro hcontra
          exact hnostop (Or.inr ⟨t, hth, by rw [Nat.succ_mul]; exact hcontra⟩)
        rw [if_neg hgt, Nat.succ_mul]
    have harith : (i + 1) + k = i + (k + 1) := by omega
    have hih := ih (i + 1) (acc ++ pkgs)
      (by rw [harith]; exact hstop)
      (fun j hj1 hj2 => hfirst j (by omega) (by omega))
      (fun j hj1 hj2 => hclean j (by omega) (by omega))
    obtain ⟨⟨res, hres⟩, hnone⟩ := hih
    exact ⟨⟨res, by rw [hstep (k + 1)]; exact hres⟩, by rw [hstep k]; exact hnone⟩

/-- C8: whenever some page carries a stop signal — an empty entry list, or a
total-hit count that the advanced offset reaches — and every earlier page
parses cleanly, the fetch terminates successfully exactly at the first such
page: fuel for the pages up to and including it suffices, and one page less
does not.  (In the loop body the empty-page test runs before the total-hit
test; see `fetchGo_succ`.) -/
theorem C8_pagination_terminates (server : Nat → PageResp) (k : Nat)
    (hstop : stopSignal server k)
    (hfirst : ∀ j, j < k → ¬ stopSignal server j)
    (hclean : ∀ j, j ≤ k → ∃ pkgs, processEntries (server (j * TAKE)).data = .ok pkgs) :
    (∃ res, fetch_packages server (k + 1) = some (.ok res)) ∧
      fetch_packages server k = none := by
  have h := fetchGo_stops server k 0 []
    (by simpa using hstop)
    (fun j hj1 hj2 => hfirst j (by omega))
    (fun j hj1 hj2 => hclean j (by omega))
  simpa [fetch_packages] using h

/-- A server whose page 0 is nonempty with no total-hit count and whose page
1 is empty: the first stop signal is the empty page at index 1. -/
def C8_server : Nat → PageResp := fun skip =>
  if skip = 0 then
    ⟨[⟨some "Azure.Data.Tables", some "12.9.0", some (.jnum 3), some "Tables", none, none⟩],
     none⟩
  else ⟨[], none⟩

/-- C8 witness: the termination theorem applied to the concrete server — two
pages of fuel succeed, one page of fuel is not enough. -/
theorem C8_witness :
    (∃ res, fetch_packages C8_server 2 = some (.ok res)) ∧
      fetch_packages C8_server 1 = none := by
  refine C8_pagination_terminates C8_server 1 (Or.inl rfl) ?_ ?_
  · intro j hj
    have hj0 : j = 0 := by omega
    subst hj0
    rintro (hdata | ⟨t, hth, hle⟩)
    · simp [C8_server] at hdata
    · simp [C8_server] at hth
  · intro j hj
    have : j = 0 ∨ j = 1 := by omega
    rcases this with rfl | rfl
    · exact ⟨_, rfl⟩
    · exact ⟨_, rfl⟩

/-- C4 counterexample: the claim "if the maximum is 0 every bar width is 0"
fails on the code.  For an entry list whose FIRST entry has popularity 0 but
which contains a positive entry (the renderer takes the maximum from the
first entry, not the true maximum), the zero-maximum branch computes width 0
and the very next line `max(2, bar_width) if total_downloads > 0` raises it
to 2. -/
theorem C4_counterexample :
    fracToRat (bar_width_frac 0 5) = 2 ∧ (2 : ℚ) ≠ 0 := by
  have h : bar_width_frac 0 5 = (2, 1) := by decide
  constructor
  · rw [h]; norm_num [fracToRat]
  · norm_num

/-- C4 amended: the exact bar-width law of the code.  With `m` the first
entry's popularity and `td` the entry's: a non-positive `td` renders width 0
(in particular popularity exactly 0 does, as claimed); a positive `td` under
a positive `m` renders `max 2 (td/m*100)` — the proportional width with any
positive value below the 2% floor clamped up to 2, as claimed; but a
positive `td` under `m = 0` renders width 2, not 0: the floor line overrides
the zero-maximum rule. -/
theorem C4_bar_width (max_downloads total_downloads : Int) :
    (total_downloads ≤ 0 →
      fracToRat (bar_width_frac max_downloads total_downloads) = 0) ∧
    (0 < total_downloads → max_downloads = 0 →
      fracToRat (bar_width_frac max_downloads total_downloads) = 2) ∧
    (0 < total_downloads → 0 < max_downloads →
      fracToRat (bar_width_frac max_downloads total_downloads) =
        max 2 ((total_downloads : ℚ) / (max_downloads : ℚ) * 100)) := by
  refine ⟨?_, ?_, ?_⟩
  · intro htd
    have h0 : ¬ 0 < total_downloads := by omega
    simp only [bar_width_frac, if_neg h0]
    norm_num [fracToRat]
  · intro htd hmax
    subst hmax
    norm_num [bar_width_frac, fracToRat, htd]
  · intro htd hmax
    have hmne : ¬ max_downloads = 0 := by omega
    have hmnlt : ¬ max_downloads < 0 := by omega
    have hmQ : (0 : ℚ) < (max_downloads : ℚ) := by exact_mod_cast hmax
    simp only [bar_width_frac, if_neg hmne, if_neg hmnlt, if_pos htd]
    by_cases hcl : 2 * max_downloads ≤ total_downloads * 100
    · rw [if_pos hcl]
      have hge : (2 : ℚ) ≤ (total_downloads : ℚ) / (max_downloads : ℚ) * 100 := by
        rw [div_mul_eq_mul_div, le_div_iff₀ hmQ]
        exact_mod_cast hcl
      rw [max_eq_right hge]
      simp only [fracToRat]
      push_cast
      ring
    · rw [if_neg hcl]
      have hlt : (total_downloads : ℚ) / (max_downloads : ℚ) * 100 ≤ 2 := by
        rw [div_mul_eq_mul_div, div_le_iff₀ hmQ]
        exact_mod_cast by omega
      rw [max_eq_left hlt]
      norm_num [fracToRat]

/-- C4 witness: the proportional/floor conjunct applied at popularity 1
against maximum 1000 — a 0.1% computed width, clamped by the floor. -/
theorem C4_witness :
    fracToRat (bar_width_frac 1000 1) =
      max 2 (((1 : Int) : ℚ) / ((1000 : Int) : ℚ) * 100) :=
  (C4_bar_width 1000 1).2.2 (by decide) (by decide)

/-- `m` occurs verbatim (as a contiguous character run) inside `s`. -/
def occursIn (m s : String) : Prop :=
  m.data <:+: s.data

/-- A string is an infix of itself. -/
theorem occursIn_refl (s : String) : occursIn s s := List.infix_rfl

/-- An infix survives prepending on the left. -/
theorem occursIn_append_left (t : String) {m s : String} (h : occursIn m s) :
    occursIn m (t ++ s) := by
  obtain ⟨a, b, hab⟩ := h
  refine ⟨t.data ++ a, b, ?_⟩
  rw [String.data_append, ← hab]
  simp [List.append_assoc]

/-- An infix survives appending on the right. -/
theorem occursIn_append_right (t : String) {m s : String} (h : occursIn m s) :
    occursIn m (s ++ t) := by
  obtain ⟨a, b, hab⟩ := h
  refine ⟨a, b ++ t.data, ?_⟩
  rw [String.data_append, ← hab]
  simp [List.append_assoc]

/-- Infixes compose. -/
theorem occursIn_trans {a b c : String} (h1 : occursIn a b) (h2 : occursIn b c) :
    occursIn a c :=
  h1.trans h2

/-- Every joined item occurs verbatim in the join. -/
theorem occursIn_joinWith (sep : String) :
    ∀ (items : List String) (r : String), r ∈ items → occursIn r (joinWith sep items) := by
  intro items
  induction items with
  | nil => intro r hr; simp at hr
  | cons s rest ih =>
    intro r hr
    cases rest with
    | nil =>
      have hs : r = s := by simpa using hr
      subst hs
      exact occursIn_refl r
    | cons s2 rest2 =>
      rcases List.mem_cons.mp hr with hr | hr
      · subst hr
        show occursIn r ((r ++ sep) ++ joinWith sep (s2 :: rest2))
        exact occursIn_append_right _ (occursIn_append_right _ (occursIn_refl r))
      · show occursIn r ((s ++ sep) ++ joinWith sep (s2 :: rest2))
        exact occursIn_append_left _ (ih r hr)

/-- The rendered row embeds the entry's description verbatim. -/
theorem renderRow_contains_description (md : Int) (idx : Nat) (package : Package) :
    occursIn package.description (renderRow md idx package) := by
  simp only [renderRow]
  repeat
    first
    | exact occursIn_append_left _ (occursIn_refl _)
    | apply occursIn_append_right

/-- The rendered row embeds the entry's identifier verbatim (within the
hyperlink when a homepage is rendered, bare otherwise). -/
theorem renderRow_contains_id (md : Int) (idx : Nat) (package : Package) :
    occursIn package.id (renderRow md idx package) := by
  simp only [renderRow]
  cases hurl : package.project_url with
  | none =>
    dsimp only
    repeat
      first
      | exact occursIn_append_left _ (occursIn_refl _)
      | apply occursIn_append_right
  | some url =>
    dsimp only
    by_cases hu : url = ""
    · rw [if_pos hu]
      repeat
        first
        | exact occursIn_append_left _ (occursIn_refl _)
        | apply occursIn_append_right
    · rw [if_neg hu]
      have hplk : occursIn package.id
          ("<a href=\"" ++ url ++ "\" target=\"_blank\" rel=\"noopener\">" ++
            package.id ++ "</a>") := by
        repeat
          first
          | exact occursIn_append_left _ (occursIn_refl _)
          | apply occursIn_append_right
      repeat
        first
        | exact occursIn_append_left _ hplk
        | apply occursIn_append_right

/-- The rendered row embeds a present, non-empty homepage URL verbatim. -/
theorem renderRow_contains_url (md : Int) (idx : Nat) (package : Package) (url : String)
    (hurl : package.project_url = some url) (hu : url ≠ "") :
    occursIn url (renderRow md idx package) := by
  simp only [renderRow, hurl]
  rw [if_neg hu]
  have hplk : occursIn url
      ("<a href=\"" ++ url ++ "\" target=\"_blank\" rel=\"noopener\">" ++
        package.id ++ "</a>") := by
    repeat
      first
      | exact occursIn_append_left _ (occursIn_refl _)
      | apply occursIn_append_right
  repeat
    first
    | exact occursIn_append_left _ hplk
    | apply occursIn_append_right

/-- The rendered row embeds every owner string verbatim. -/
theorem renderRow_contains_owner (md : Int) (idx : Nat) (package : Package) (owner : String)
    (howner : owner ∈ package.owners) :
    occursIn owner (renderRow md idx package) := by
  simp only [renderRow]
  have hne : ¬ package.owners.isEmpty = true := by
    intro hcontra
    rw [List.isEmpty_iff.mp hcontra] at howner
    simp at howner
  rw [if_neg hne]
  have hjoin : occursIn owner (joinWith ", " package.owners) :=
    occursIn_joinWith _ _ _ howner
  repeat
    first
    | exact occursIn_append_left _ hjoin
    | apply occursIn_append_right

/-- Anything embedded verbatim in an entry's row is embedded verbatim in the
document rendered for any list containing that entry. -/
theorem build_html_contains (entries : List Package) (ts x : String) (package : Package)
    (hmem : package ∈ entries)
    (hrow : ∀ (md : Int) (idx : Nat), occursIn x (renderRow md idx package)) :
    occursIn x (build_html entries ts) := by
  obtain ⟨i, hlen, hget⟩ := List.mem_iff_getElem.mp hmem
  simp only [build_html]
  generalize (match entries with
    | [] => 0
    | package :: _ => package.total_downloads) = md
  have hrowmem : renderRow md (i + 1) package ∈
      entries.mapIdx (fun i package => renderRow md (i + 1) package) := by
    rw [List.mem_iff_getElem]
    refine ⟨i, by simpa using hlen, ?_⟩
    simp only [List.getElem_mapIdx]
    rw [hget]
  have hjoin : occursIn x
      (joinWith "\n" (entries.mapIdx (fun i package => renderRow md (i + 1) package))) :=
    occursIn_trans (hrow md (i + 1)) (occursIn_joinWith _ _ _ hrowmem)
  have hne : ¬ (entries.mapIdx (fun i package => renderRow md (i + 1) package)).isEmpty = true := by
    intro hcontra
    have h1 := List.isEmpty_iff.mp hcontra
    rw [List.mapIdx_eq_nil_iff] at h1
    rw [h1] at hmem
    simp at hmem
  rw [if_neg hne]
  exact occursIn_append_right _ (occursIn_append_left _ hjoin)

/-- C10: the renderer performs no HTML escaping — an entry's identifier,
description, homepage URL (when present and non-empty, i.e. when rendered)
and every owner string are embedded verbatim in the output document, so any
markup characters they contain appear unchanged in the rendered HTML. -/
theorem C10_no_escaping (entries : List Package) (ts : String) (package : Package)
    (hmem : package ∈ entries) :
    occursIn package.description (build_html entries ts) ∧
    occursIn package.id (build_html entries ts) ∧
    (∀ url, package.project_url = some url → url ≠ "" →
      occursIn url (build_html entries ts)) ∧
    (∀ owner, owner ∈ package.owners → occursIn owner (build_html entries ts)) := by
  refine ⟨?_, ?_, ?_, ?_⟩
  · exact build_html_contains entries ts _ package hmem
      (fun md idx => renderRow_contains_description md idx package)
  · exact build_html_contains entries ts _ package hmem
      (fun md idx => renderRow_contains_id md idx package)
  · intro url hurl hu
    exact build_html_contains entries ts _ package hmem
      (fun md idx => renderRow_contains_url md idx package url hurl hu)
  · intro owner howner
    exact build_html_contains entries ts _ package hmem
      (fun md idx => renderRow_contains_owner md idx package owner howner)

/-- An entry whose fields carry HTML markup characters. -/
def C10_package : Package :=
  ⟨"Azure.X<script>", "1.0.0", 42, "desc with <b> & \"quotes\"",
    some "https://ex.invalid/?q=<1>", ["own<er", "second \"owner\""]⟩

/-- C10 witness: the no-escaping theorem applied to a concrete entry with
markup in every field — the raw `<`, `&` and `"` land in the document. -/
theorem C10_witness :
    occursIn "desc with <b> & \"quotes\"" (build_html [C10_package] "T") ∧
    occursIn "Azure.X<script>" (build_html [C10_package] "T") ∧
    occursIn "https://ex.invalid/?q=<1>" (build_html [C10_package] "T") ∧
    occursIn "own<er" (build_html [C10_package] "T") := by
  have h := C10_no_escaping [C10_package] "T" C10_package (List.mem_singleton.mpr rfl)
  exact ⟨h.1, h.2.1, h.2.2.1 _ rfl (by decide), h.2.2.2 _ (by decide)⟩
